import Mathlib

set_option maxHeartbeats 1000000

/-
Verification of the build/output pipeline in crates/mako/src/generate.rs.

The embedding models the orchestration code of generate.rs directly:
pure data (chunks, chunk graphs, configs) become Lean structures, the
external collaborators of the orchestrator (module transform, chunk
grouping, hashing, codegen, minifiers, the filesystem) become fields of
an environment record, and the observable behaviour of each entry point
is a pair of an event trace (renders, writes, copies) and an
Except-valued result mirroring the anyhow Result and panic outcomes.
-/

namespace Mako

/-- Build mode, from config::Mode as matched in generate.rs. -/
inductive Mode where
  | development
  | production
deriving DecidableEq

/-- Devtool option, from config::DevtoolConfig as matched in generate.rs. -/
inductive DevtoolConfig where
  | none
  | sourceMap
deriving DecidableEq

/-- The output section of the config; generate.rs only reads output.path. -/
structure OutputConfig where
  path : String
deriving DecidableEq

/-- The configuration fields consumed by generate.rs. -/
structure Config where
  mode : Mode
  minify : Bool
  devtool : DevtoolConfig
  output : OutputConfig
deriving DecidableEq

/-- Errors: ordinary anyhow-style failures and rust panics. -/
inductive BuildError where
  | err (msg : String)
  | panicked (msg : String)
deriving DecidableEq

/-- A chunk as consumed by generate.rs: a name, a filename and the set of
module ids it bundles. -/
structure Chunk where
  name : String
  filename : String
  modules : List String
deriving DecidableEq

/-- The chunk graph: a collection of chunks. -/
structure ChunkGraph where
  chunks : List Chunk
deriving DecidableEq

/-- chunk_names of the chunk graph. -/
def ChunkGraph.chunk_names (cg : ChunkGraph) : List String :=
  cg.chunks.map Chunk.name

/-- get_chunks of the chunk graph. -/
def ChunkGraph.get_chunks (cg : ChunkGraph) : List Chunk :=
  cg.chunks

/-- get_chunk_by_name of the chunk graph. -/
def ChunkGraph.get_chunk_by_name (cg : ChunkGraph) (n : String) : Option Chunk :=
  cg.chunks.find? (fun c => c.name == n)

/-- has_module of a chunk. -/
def Chunk.has_module (c : Chunk) (m : String) : Bool :=
  c.modules.contains m

/-- Modelled from the spec: the UpdateResult type is produced by the
update stage, which is not part of this file; generate.rs only consumes
its list of modified module ids. -/
structure UpdateResult where
  modified : List String
deriving DecidableEq

/-- The output AST kinds distinguished by generate.rs: scripts,
stylesheets, and everything else (matched by the wildcard arm). The
payload is an opaque fingerprint of the underlying AST. -/
inductive ModuleAst where
  | script (ast : Nat)
  | css (ast : Nat)
  | other
deriving DecidableEq

/-- An output AST with its output-relative path, from generate_chunks. -/
structure OutputAst where
  path : String
  ast : ModuleAst
deriving DecidableEq

/-- The compiler state threaded through a build: the module graph
(module ids plus an opaque content fingerprint mutated by transforms),
the shared chunk graph, the project root and the declared assets map. -/
structure CState where
  moduleIds : List String
  chunkGraph : ChunkGraph
  content : Nat
  root : String
  assetsInfo : List (String × String)
deriving DecidableEq

/-- The external collaborators of generate.rs, out of scope for this
file: tree shaking, chunk grouping, the per-module transform, hashing,
rendering, codegen, minifiers and the filesystem. Tree shaking mutates
only the module graph, the transform only module contents, and grouping
only the chunk graph, matching the interfaces they expose. -/
structure Env where
  treeShake : List String → Nat → List String × Nat
  groupChunk : CState → ChunkGraph
  transformResult : CState → Except BuildError Nat
  fullHash : CState → Nat
  generateChunksAst : CState → Except BuildError (List OutputAst)
  minifyJs : Nat → Except BuildError Nat
  minifyCss : Nat → Nat
  jsAstToCode : Nat → String → Except BuildError (String × String)
  cssAstToCode : Nat → String × String
  generateHmrChunk : Chunk → List String → Nat → Except BuildError String
  pathExists : String → Bool
  copyFile : String → String → Except BuildError Unit
  copyResult : Except BuildError Unit

/-- Observable events of a build run, in program order. -/
inductive Event where
  | treeShake
  | groupChunk
  | transform (moduleId : String)
  | createDir (path : String)
  | renderChunks
  | renderHmrChunk (chunkName : String)
  | write (path : String) (content : String)
  | copyAsset (src : String) (dst : String)
  | copyStep
deriving DecidableEq

/-- Is the event a module transform? -/
def Event.isTransform : Event → Bool
  | Event.transform _ => true
  | _ => false

/-- Is the event a file write? -/
def Event.isWrite : Event → Bool
  | Event.write _ _ => true
  | _ => false

/-- Is the event a directory creation? -/
def Event.isCreateDir : Event → Bool
  | Event.createDir _ => true
  | _ => false

/-- Is the event a per-chunk render or a file write? -/
def Event.isRenderOrWrite : Event → Bool
  | Event.renderChunks => true
  | Event.renderHmrChunk _ => true
  | Event.write _ _ => true
  | _ => false

/-- Path.join as used by generate.rs on already-relative parts. -/
def pathJoin (a b : String) : String :=
  a ++ "/" ++ b

/-- Rust str::rsplit_once: split at the last occurrence of the
separator, returning the parts before and after it. -/
def rsplitOnce (sep : Char) : List Char → Option (List Char × List Char)
  | [] => Option.none
  | c :: rest =>
    match rsplitOnce sep rest with
    | Option.some (l, r) => Option.some (c :: l, r)
    | Option.none => if c = sep then Option.some ([], rest) else Option.none

/-- to_hot_update_chunk_name from generate.rs, lines 338-347. -/
def to_hot_update_chunk_name (chunk_name : String) (hash : Nat) : String :=
  match rsplitOnce '.' chunk_name.data with
  | Option.none => chunk_name ++ "." ++ Nat.repr hash ++ ".hot-update"
  | Option.some (left, ext) =>
      List.asString left ++ "." ++ Nat.repr hash ++ ".hot-update." ++ List.asString ext

/-- One hex digit, lowercase, as serde_json prints control escapes. -/
def hexDigit (n : Nat) : Char :=
  if n < 10 then Char.ofNat (48 + n) else Char.ofNat (87 + n)

/-- serde_json escaping of one character inside a JSON string. -/
def jsonEscapeChar (c : Char) : String :=
  if c = '"' then "\\\""
  else if c = '\\' then "\\\\"
  else if c = Char.ofNat 8 then "\\b"
  else if c = Char.ofNat 9 then "\\t"
  else if c = Char.ofNat 10 then "\\n"
  else if c = Char.ofNat 12 then "\\f"
  else if c = Char.ofNat 13 then "\\r"
  else if c.toNat < 32 then
    "\\u00" ++ Char.toString (hexDigit (c.toNat / 16)) ++ Char.toString (hexDigit (c.toNat % 16))
  else Char.toString c

/-- serde_json serialization of a string. -/
def jsonStringLit (s : String) : String :=
  "\"" ++ String.join (s.data.map jsonEscapeChar) ++ "\""

/-- serde_json serialization of a vector of strings. -/
def jsonStringArray (xs : List String) : String :=
  "[" ++ String.intercalate "," (xs.map jsonStringLit) ++ "]"

/-- HotUpdateManifest from generate.rs, lines 349-356: modified chunks
are declared first and renamed to the key c, removed chunks second and
renamed to the key r. -/
structure HotUpdateManifest where
  modified_chunks : List String
  removed_chunks : List String
deriving DecidableEq

/-- serde_json::to_string of a HotUpdateManifest: fields in declaration
order under their serde rename keys. -/
def hotUpdateManifestJson (m : HotUpdateManifest) : String :=
  "\x7b" ++ jsonStringLit "c" ++ ":" ++ jsonStringArray m.modified_chunks
    ++ "," ++ jsonStringLit "r" ++ ":" ++ jsonStringArray m.removed_chunks ++ "\x7d"

/-- The hot-update manifest filename, keyed by the previous full hash. -/
def manifestFileName (lastFullHash : Nat) : String :=
  Nat.repr lastFullHash ++ ".hot-update.json"

/-- Tree shaking runs only in production mode (generate.rs line 23). -/
def treeShakeState (env : Env) (cfg : Config) (s : CState) : CState :=
  if cfg.mode = Mode.production then
    { s with
      moduleIds := (env.treeShake s.moduleIds s.content).1
      content := (env.treeShake s.moduleIds s.content).2 }
  else s

/-- The events emitted by the optional tree-shaking step. -/
def treeShakeEvents (cfg : Config) : List Event :=
  if cfg.mode = Mode.production then [Event.treeShake] else []

/-- group_chunk recomputes the shared chunk graph from the module graph. -/
def regroupState (env : Env) (s : CState) : CState :=
  { s with chunkGraph := env.groupChunk s }

/-- The ensure-output-dir step: create_dir_all only when missing. -/
def ensureDirEvents (env : Env) (cfg : Config) : List Event :=
  if env.pathExists cfg.output.path then [] else [Event.createDir cfg.output.path]

/-- The minify closure body of generate.rs lines 58-70: only in
production mode, scripts through minify_js, stylesheets through the swc
css minifier, anything else untouched. -/
def minifyFile (env : Env) (cfg : Config) (f : OutputAst) : Except BuildError OutputAst :=
  if cfg.mode = Mode.production then
    match f.ast with
    | ModuleAst.script a =>
      match env.minifyJs a with
      | Except.error e => Except.error e
      | Except.ok b => Except.ok { f with ast := ModuleAst.script b }
    | ModuleAst.css a => Except.ok { f with ast := ModuleAst.css (env.minifyCss a) }
    | ModuleAst.other => Except.ok f
  else Except.ok f

/-- The try_for_each over all chunk ASTs inside the minify step. -/
def minifyFiles (env : Env) (cfg : Config) : List OutputAst → Except BuildError (List OutputAst)
  | [] => Except.ok []
  | f :: rest =>
    match minifyFile env cfg f with
    | Except.error e => Except.error e
    | Except.ok f2 =>
      match minifyFiles env cfg rest with
      | Except.error e => Except.error e
      | Except.ok r => Except.ok (f2 :: r)

/-- The minify step of generate.rs lines 55-72: gated on the minify
flag, with the production check inside the per-file closure. -/
def minifyStep (env : Env) (cfg : Config) (files : List OutputAst) :
    Except BuildError (List OutputAst) :=
  if cfg.minify then minifyFiles env cfg files else Except.ok files

/-- The codegen-and-write fan-out of generate.rs lines 78-101: scripts
are written with an optional sourcemap sibling, stylesheets are written,
other kinds are skipped. -/
def writeChunksStep (env : Env) (cfg : Config) :
    List OutputAst → List Event × Except BuildError Unit
  | [] => ([], Except.ok ())
  | f :: rest =>
    match f.ast with
    | ModuleAst.script a =>
      match env.jsAstToCode a f.path with
      | Except.error e => ([], Except.error e)
      | Except.ok cm =>
        let out := pathJoin cfg.output.path f.path
        let evs := Event.write out cm.1 ::
          (if cfg.devtool = DevtoolConfig.sourceMap then [Event.write (out ++ ".map") cm.2] else [])
        let r := writeChunksStep env cfg rest
        (evs ++ r.1, r.2)
    | ModuleAst.css a =>
      let code := (env.cssAstToCode a).1
      let r := writeChunksStep env cfg rest
      (Event.write (pathJoin cfg.output.path f.path) code :: r.1, r.2)
    | ModuleAst.other => writeChunksStep env cfg rest

/-- The codegen-and-write fan-out of emit_dev_chunks, lines 158-177:
like the full-build one but stylesheet chunks are not written. -/
def writeDevChunksStep (env : Env) (cfg : Config) :
    List OutputAst → List Event × Except BuildError Unit
  | [] => ([], Except.ok ())
  | f :: rest =>
    match f.ast with
    | ModuleAst.script a =>
      match env.jsAstToCode a f.path with
      | Except.error e => ([], Except.error e)
      | Except.ok cm =>
        let out := pathJoin cfg.output.path f.path
        let evs := Event.write out cm.1 ::
          (if cfg.devtool = DevtoolConfig.sourceMap then [Event.write (out ++ ".map") cm.2] else [])
        let r := writeDevChunksStep env cfg rest
        (evs ++ r.1, r.2)
    | ModuleAst.css _ => writeDevChunksStep env cfg rest
    | ModuleAst.other => writeDevChunksStep env cfg rest

/-- The asset-copy loop of generate.rs lines 107-116: each declared
asset is copied from the project root into the output tree; a missing
source file panics, a failing copy aborts with its error. -/
def writeAssetsStep (env : Env) (root out : String) :
    List (String × String) → List Event × Except BuildError Unit
  | [] => ([], Except.ok ())
  | kv :: rest =>
    let assetPath := pathJoin root kv.1
    if env.pathExists assetPath then
      match env.copyFile assetPath (pathJoin out kv.2) with
      | Except.error e => ([], Except.error e)
      | Except.ok _ =>
        let r := writeAssetsStep env root out rest
        (Event.copyAsset assetPath (pathJoin out kv.2) :: r.1, r.2)
    else
      ([], Except.error (BuildError.panicked ("asset not found: " ++ assetPath)))

/-- The tail of the full build after transform_all: ensure output dir,
render all chunk ASTs, minify, codegen and write, copy assets, run the
configured copy rules. -/
def generateTail (env : Env) (cfg : Config) (s : CState) :
    List Event × Except BuildError Unit :=
  let dirEv := ensureDirEvents env cfg
  match env.generateChunksAst s with
  | Except.error e => (dirEv ++ [Event.renderChunks], Except.error e)
  | Except.ok chunkAsts =>
    match minifyStep env cfg chunkAsts with
    | Except.error e => (dirEv ++ [Event.renderChunks], Except.error e)
    | Except.ok minified =>
      let w := writeChunksStep env cfg minified
      match w.2 with
      | Except.error e => (dirEv ++ [Event.renderChunks] ++ w.1, Except.error e)
      | Except.ok _ =>
        let a := writeAssetsStep env s.root cfg.output.path s.assetsInfo
        match a.2 with
        | Except.error e => (dirEv ++ [Event.renderChunks] ++ w.1 ++ a.1, Except.error e)
        | Except.ok _ =>
          match env.copyResult with
          | Except.error e =>
              (dirEv ++ [Event.renderChunks] ++ w.1 ++ a.1, Except.error e)
          | Except.ok _ =>
              (dirEv ++ [Event.renderChunks] ++ w.1 ++ a.1 ++ [Event.copyStep], Except.ok ())

/-- Compiler::generate, lines 19-142: tree shake in production, regroup
chunks, transform every module once, then the write tail. -/
def generate (env : Env) (cfg : Config) (s0 : CState) :
    List Event × Except BuildError Unit :=
  let s1 := treeShakeState env cfg s0
  let s2 := regroupState env s1
  let pre := treeShakeEvents cfg ++ [Event.groupChunk] ++ s2.moduleIds.map Event.transform
  match env.transformResult s2 with
  | Except.error e => (pre, Except.error e)
  | Except.ok c =>
    let tail := generateTail env cfg { s2 with content := c }
    (pre ++ tail.1, tail.2)

/-- Compiler::emit_dev_chunks, lines 144-215: ensure output dir, write
already-rendered chunk ASTs, copy assets, run the configured copy
rules; no tree shaking, grouping or transforming. -/
def emit_dev_chunks (env : Env) (cfg : Config) (s : CState) (chunkAsts : List OutputAst) :
    List Event × Except BuildError Unit :=
  let dirEv := ensureDirEvents env cfg
  let w := writeDevChunksStep env cfg chunkAsts
  match w.2 with
  | Except.error e => (dirEv ++ w.1, Except.error e)
  | Except.ok _ =>
    let a := writeAssetsStep env s.root cfg.output.path s.assetsInfo
    match a.2 with
    | Except.error e => (dirEv ++ w.1 ++ a.1, Except.error e)
    | Except.ok _ =>
      match env.copyResult with
      | Except.error e => (dirEv ++ w.1 ++ a.1, Except.error e)
      | Except.ok _ => (dirEv ++ w.1 ++ a.1 ++ [Event.copyStep], Except.ok ())

/-- The modified-chunk computation of generate.rs lines 273-283: chunks
of the current graph holding at least one modified module, identified
by their filename. -/
def modifiedChunkNames (cg : ChunkGraph) (modifiedIds : List String) : List String :=
  (cg.get_chunks.filter (fun c => modifiedIds.any (fun m => c.has_module m))).map Chunk.filename

/-- The removed-chunk computation of generate.rs lines 288-291: the
set difference of the previous chunk names minus the current ones. -/
def removedChunkNames (lastNames currentNames : List String) : List String :=
  lastNames.filter (fun n => !(currentNames.contains n))

/-- The patch-writing loop of generate.rs lines 293-302: for each
modified chunk filename that resolves in the chunk graph, render the
hmr chunk and write it under the hash-qualified hot-update name;
unresolvable names are silently skipped. -/
def writePatches (env : Env) (cfg : Config) (s : CState) (modifiedIds : List String)
    (currentFullHash lastFullHash : Nat) :
    List String → List Event × Except BuildError Unit
  | [] => ([], Except.ok ())
  | n :: rest =>
    match s.chunkGraph.get_chunk_by_name n with
    | Option.none => writePatches env cfg s modifiedIds currentFullHash lastFullHash rest
    | Option.some c =>
      match env.generateHmrChunk c modifiedIds currentFullHash with
      | Except.error e => ([Event.renderHmrChunk n], Except.error e)
      | Except.ok code =>
        let r := writePatches env cfg s modifiedIds currentFullHash lastFullHash rest
        (Event.renderHmrChunk n
          :: Event.write (pathJoin cfg.output.path (to_hot_update_chunk_name n lastFullHash)) code
          :: r.1, r.2)

/-- The emit tail of generate_hot_update_chunks once the hash check has
failed: ensure output dir, diff chunk names and module membership,
write patches for the modified chunks, then write the manifest. -/
def hotUpdateTail (env : Env) (cfg : Config) (lastChunkNames : List String)
    (s2 : CState) (u : UpdateResult) (currentFullHash lastFullHash : Nat) :
    List Event × Except BuildError Unit :=
  let dirEv := ensureDirEvents env cfg
  let modified := modifiedChunkNames s2.chunkGraph u.modified
  let removed := removedChunkNames lastChunkNames s2.chunkGraph.chunk_names
  let pw := writePatches env cfg s2 u.modified currentFullHash lastFullHash modified
  match pw.2 with
  | Except.error e => (dirEv ++ pw.1, Except.error e)
  | Except.ok _ =>
    (dirEv ++ pw.1
      ++ [Event.write (pathJoin cfg.output.path (manifestFileName lastFullHash))
            (hotUpdateManifestJson
              { modified_chunks := modified, removed_chunks := removed })],
     Except.ok ())

/-- Compiler::generate_hot_update_chunks, lines 218-325: snapshot the
previous chunk names, regroup, transform every module once, fingerprint
the build, stop if the hash is unchanged, otherwise emit patches and
the manifest and return the new hash. -/
def generate_hot_update_chunks (env : Env) (cfg : Config) (s0 : CState)
    (updatedModules : UpdateResult) (lastFullHash : Nat) :
    List Event × Except BuildError Nat :=
  let lastChunkNames := s0.chunkGraph.chunk_names
  let s1 := regroupState env s0
  let pre := Event.groupChunk :: s1.moduleIds.map Event.transform
  match env.transformResult s1 with
  | Except.error e => (pre, Except.error e)
  | Except.ok c =>
    let s2 := { s1 with content := c }
    let currentFullHash := env.fullHash s2
    if currentFullHash = lastFullHash then
      (pre, Except.ok currentFullHash)
    else
      let tail := hotUpdateTail env cfg lastChunkNames s2 updatedModules currentFullHash lastFullHash
      (pre ++ tail.1,
       match tail.2 with
       | Except.error e => Except.error e
       | Except.ok _ => Except.ok currentFullHash)

/-! Concrete fixtures used to evaluate the model on closed inputs. -/

/-- A sample chunk bundling two modules. -/
def chunkA : Chunk := { name := "main.js", filename := "main.js", modules := ["m1", "shared"] }

/-- A second sample chunk sharing a module with the first. -/
def chunkB : Chunk := { name := "vendor.js", filename := "vendor.js", modules := ["m2", "shared"] }

/-- A sample chunk whose filename differs from its graph name. -/
def chunkC : Chunk := { name := "main", filename := "main.js", modules := ["m1"] }

/-- A sample chunk graph with two chunks. -/
def cg0 : ChunkGraph := { chunks := [chunkA, chunkB] }

/-- A sample compiler state. -/
def state0 : CState :=
  { moduleIds := ["m1", "m2", "shared"], chunkGraph := cg0, content := 5,
    root := "root", assetsInfo := [] }

/-- A sample development-mode config. -/
def cfg0 : Config :=
  { mode := Mode.development, minify := false, devtool := DevtoolConfig.none,
    output := { path := "dist" } }

/-- A sample production-mode config with minify enabled. -/
def cfgP : Config :=
  { mode := Mode.production, minify := true, devtool := DevtoolConfig.sourceMap,
    output := { path := "dist" } }

/-- A sample update result marking one module as modified. -/
def u0 : UpdateResult := { modified := ["m1"] }

/-- A sample update result with no modified module. -/
def u1 : UpdateResult := { modified := [] }

/-- A sample environment with total, deterministic collaborators. -/
def env0 : Env :=
  { treeShake := fun ids c => (ids, c)
    groupChunk := fun s => s.chunkGraph
    transformResult := fun s => Except.ok s.content
    fullHash := fun s => s.content
    generateChunksAst := fun _ => Except.ok [{ path := "main.js", ast := ModuleAst.script 1 }]
    minifyJs := fun a => Except.ok (a + 100)
    minifyCss := fun a => a + 200
    jsAstToCode := fun a p => Except.ok ("js:" ++ Nat.repr a ++ ":" ++ p, "map")
    cssAstToCode := fun a => ("css:" ++ Nat.repr a, "")
    generateHmrChunk := fun c _ h => Except.ok ("hmr:" ++ c.name ++ ":" ++ Nat.repr h)
    pathExists := fun _ => true
    copyFile := fun _ _ => Except.ok ()
    copyResult := Except.ok () }

/-- A state declaring one asset. -/
def state8 : CState := { state0 with assetsInfo := [("logo.png", "logo.png")] }

/-- An environment where the declared asset source file is missing. -/
def env8 : Env := { env0 with pathExists := fun p => !(p == "root/logo.png") }

/-- A state whose chunk graph names do not match chunk filenames. -/
def state9 : CState := { state0 with chunkGraph := { chunks := [chunkC] } }

/-- An environment whose regrouping drops the first chunk. -/
def env6 : Env := { env0 with groupChunk := fun _ => { chunks := [chunkB] } }

/-! Derived views of a hot-update run, used to state its properties. -/

/-- The state of a hot-update rebuild after regrouping and a transform
that produced the content fingerprint c. -/
def hotState (env : Env) (s0 : CState) (c : Nat) : CState :=
  { regroupState env s0 with content := c }

/-- The modified chunk filenames a hot-update rebuild computes. -/
def hotModified (env : Env) (s0 : CState) (u : UpdateResult) : List String :=
  modifiedChunkNames (env.groupChunk s0) u.modified

/-- The removed chunk names a hot-update rebuild computes. -/
def hotRemoved (env : Env) (s0 : CState) : List String :=
  removedChunkNames s0.chunkGraph.chunk_names (env.groupChunk s0).chunk_names

/-- The patch-writing run of a hot-update rebuild. -/
def hotPatches (env : Env) (cfg : Config) (s0 : CState) (u : UpdateResult)
    (c lastFullHash : Nat) : List Event × Except BuildError Unit :=
  writePatches env cfg (hotState env s0 c) u.modified
    (env.fullHash (hotState env s0 c)) lastFullHash (hotModified env s0 u)

/-- The manifest write event of a hot-update rebuild. -/
def hotManifestEvent (env : Env) (cfg : Config) (s0 : CState) (u : UpdateResult)
    (lastFullHash : Nat) : Event :=
  Event.write (pathJoin cfg.output.path (manifestFileName lastFullHash))
    (hotUpdateManifestJson
      { modified_chunks := hotModified env s0 u, removed_chunks := hotRemoved env s0 })

/-- The once-per-build transform discipline: every module of the graph
is transformed exactly once in the trace, and the trace splits into a
prefix holding all the transforms and free of renders and writes,
followed by a suffix free of transforms. -/
def transformOnceSpec (ids : List String) (t : List Event) : Prop :=
  (∀ m ∈ ids, t.count (Event.transform m) = 1)
  ∧ ∃ pre post, t = pre ++ post
      ∧ (∀ e ∈ pre, e.isRenderOrWrite = false)
      ∧ (∀ m ∈ ids, pre.count (Event.transform m) = 1)
      ∧ (∀ e ∈ post, e.isTransform = false)

/-! Helper lemmas about the string-splitting primitive. -/

theorem rsplitOnce_eq_none (sep : Char) (l : List Char) (h : sep ∉ l) :
    rsplitOnce sep l = Option.none := by
  induction l with
  | nil => rfl
  | cons c rest ih =>
    have hc : ¬ c = sep := fun hcs => h (hcs ▸ List.mem_cons_self c rest)
    have hr : sep ∉ rest := fun hm => h (List.mem_cons_of_mem c hm)
    simp [rsplitOnce, ih hr, hc]

theorem rsplitOnce_append (sep : Char) (l r : List Char) (h : sep ∉ r) :
    rsplitOnce sep (l ++ sep :: r) = Option.some (l, r) := by
  induction l with
  | nil => simp [rsplitOnce, rsplitOnce_eq_none sep r h]
  | cons c cs ih => simp [rsplitOnce, ih]

theorem asString_data (s : String) : List.asString s.data = s := by
  cases s
  rfl

/-- C3: to_hot_update_chunk_name appends hash and hot-update marker to
an extensionless name, and otherwise splits the name at its last dot
and inserts them before the extension; on the concrete inputs main.js
and main with hash 12345 it yields main.12345.hot-update.js and
main.12345.hot-update. -/
theorem to_hot_update_chunk_name_spec :
    (∀ (name : String) (hash : Nat), '.' ∉ name.data →
        to_hot_update_chunk_name name hash = name ++ "." ++ Nat.repr hash ++ ".hot-update")
    ∧ (∀ (left ext : String) (hash : Nat), '.' ∉ ext.data →
        to_hot_update_chunk_name (left ++ "." ++ ext) hash
          = left ++ "." ++ Nat.repr hash ++ ".hot-update." ++ ext)
    ∧ to_hot_update_chunk_name "main.js" 12345 = "main.12345.hot-update.js"
    ∧ to_hot_update_chunk_name "main" 12345 = "main.12345.hot-update" := by
  refine ⟨?_, ?_, ?_, ?_⟩
  · intro name hash h
    unfold to_hot_update_chunk_name
    rw [rsplitOnce_eq_none '.' name.data h]
  · intro left ext hash h
    have hdot : (".").data = ['.'] := rfl
    have hdata : (left ++ "." ++ ext).data = left.data ++ '.' :: ext.data := by
      rw [String.data_append, String.data_append, hdot, List.append_assoc]
      rfl
    unfold to_hot_update_chunk_name
    rw [hdata, rsplitOnce_append '.' left.data ext.data h]
    show List.asString left.data ++ "." ++ Nat.repr hash ++ ".hot-update."
        ++ List.asString ext.data = _
    rw [asString_data, asString_data]
  · decide
  · decide

/-- Witness for C3: the general clauses evaluated at concrete inputs. -/
theorem to_hot_update_chunk_name_spec_witness :
    ('.' ∉ "box".data ∧ to_hot_update_chunk_name "box" 7 = "box" ++ "." ++ Nat.repr 7 ++ ".hot-update")
    ∧ ('.' ∉ "css".data ∧ to_hot_update_chunk_name ("style" ++ "." ++ "css") 7
          = "style" ++ "." ++ Nat.repr 7 ++ ".hot-update." ++ "css") := by
  refine ⟨⟨by decide, to_hot_update_chunk_name_spec.1 "box" 7 (by decide)⟩,
    ⟨by decide, to_hot_update_chunk_name_spec.2.1 "style" "css" 7 (by decide)⟩⟩

/-- C2: when the freshly computed full hash equals the previous one,
generate_hot_update_chunks writes no file and creates no directory, and
returns that hash as a success value. -/
theorem hot_update_noop_on_equal_hash (env : Env) (cfg : Config) (s0 : CState)
    (u : UpdateResult) (lastFullHash : Nat) (c : Nat)
    (hT : env.transformResult (regroupState env s0) = Except.ok c)
    (hH : env.fullHash { regroupState env s0 with content := c } = lastFullHash) :
    (generate_hot_update_chunks env cfg s0 u lastFullHash).2 = Except.ok lastFullHash
    ∧ ∀ e ∈ (generate_hot_update_chunks env cfg s0 u lastFullHash).1,
        e.isWrite = false ∧ e.isCreateDir = false := by
  have hrun : generate_hot_update_chunks env cfg s0 u lastFullHash
      = (Event.groupChunk :: (regroupState env s0).moduleIds.map Event.transform,
         Except.ok lastFullHash) := by
    simp [generate_hot_update_chunks, hT, hH]
  rw [hrun]
  refine ⟨rfl, ?_⟩
  intro e he
  simp only [List.mem_cons, List.mem_map] at he
  rcases he with rfl | ⟨m, _, rfl⟩
  · exact ⟨rfl, rfl⟩
  · exact ⟨rfl, rfl⟩

/-- Witness for C2 at a concrete environment and state. -/
theorem hot_update_noop_on_equal_hash_witness :
    (env0.transformResult (regroupState env0 state0) = Except.ok 5)
    ∧ (env0.fullHash { regroupState env0 state0 with content := 5 } = 5)
    ∧ ((generate_hot_update_chunks env0 cfg0 state0 u0 5).2 = Except.ok 5
       ∧ ∀ e ∈ (generate_hot_update_chunks env0 cfg0 state0 u0 5).1,
           e.isWrite = false ∧ e.isCreateDir = false) :=
  ⟨rfl, rfl, hot_update_noop_on_equal_hash env0 cfg0 state0 u0 5 5 rfl rfl⟩

/-! Event-classification lemmas for the traces of the build tails. -/

theorem isWrite_no_transform {e : Event} (h : e.isWrite = true) : e.isTransform = false := by
  cases e <;> simp_all [Event.isWrite, Event.isTransform]

theorem ensureDirEvents_no_write (env : Env) (cfg : Config) :
    ∀ e ∈ ensureDirEvents env cfg, e.isWrite = false := by
  intro e he
  unfold ensureDirEvents at he
  split at he
  · simp at he
  · simp at he
    subst he
    rfl

theorem ensureDirEvents_no_transform (env : Env) (cfg : Config) :
    ∀ e ∈ ensureDirEvents env cfg, e.isTransform = false := by
  intro e he
  unfold ensureDirEvents at he
  split at he
  · simp at he
  · simp at he
    subst he
    rfl

theorem writeChunksStep_isWrite (env : Env) (cfg : Config) :
    ∀ fs : List OutputAst, ∀ e ∈ (writeChunksStep env cfg fs).1, e.isWrite = true := by
  intro fs
  induction fs with
  | nil => intro e he; simp [writeChunksStep] at he
  | cons f rest ih =>
    intro e he
    cases hast : f.ast with
    | script a =>
      cases hjs : env.jsAstToCode a f.path with
      | error err => simp [writeChunksStep, hast, hjs] at he
      | ok cm =>
        simp only [writeChunksStep, hast, hjs] at he
        rcases List.mem_append.mp he with h1 | h2
        · rcases List.mem_cons.mp h1 with rfl | h3
          · rfl
          · by_cases hd : cfg.devtool = DevtoolConfig.sourceMap
            · simp only [if_pos hd, List.mem_singleton] at h3
              subst h3
              rfl
            · simp [if_neg hd] at h3
        · exact ih e h2
    | css a =>
      simp only [writeChunksStep, hast] at he
      rcases List.mem_cons.mp he with rfl | h2
      · rfl
      · exact ih e h2
    | other =>
      simp only [writeChunksStep, hast] at he
      exact ih e he

theorem writeAssetsStep_no_transform (env : Env) (root out : String) :
    ∀ l : List (String × String), ∀ e ∈ (writeAssetsStep env root out l).1,
      e.isTransform = false := by
  intro l
  induction l with
  | nil => intro e he; simp [writeAssetsStep] at he
  | cons kv rest ih =>
    intro e he
    simp only [writeAssetsStep] at he
    split at he
    · split at he
      · simp at he
      · rcases List.mem_cons.mp he with rfl | h2
        · rfl
        · exact ih e h2
    · simp at he

theorem generateTail_no_transform (env : Env) (cfg : Config) (s : CState) :
    ∀ e ∈ (generateTail env cfg s).1, e.isTransform = false := by
  intro e he
  simp only [generateTail] at he
  split at he
  · rcases List.mem_append.mp he with h1 | h2
    · exact ensureDirEvents_no_transform env cfg e h1
    · simp at h2; subst h2; rfl
  · split at he
    · rcases List.mem_append.mp he with h1 | h2
      · exact ensureDirEvents_no_transform env cfg e h1
      · simp at h2; subst h2; rfl
    · split at he
      · rcases List.mem_append.mp he with h1 | h2
        · rcases List.mem_append.mp h1 with h3 | h4
          · exact ensureDirEvents_no_transform env cfg e h3
          · simp at h4; subst h4; rfl
        · exact isWrite_no_transform (writeChunksStep_isWrite env cfg _ e h2)
      · split at he
        · rcases List.mem_append.mp he with h1 | h2
          · rcases List.mem_append.mp h1 with h3 | h4
            · rcases List.mem_append.mp h3 with h5 | h6
              · exact ensureDirEvents_no_transform env cfg e h5
              · simp at h6; subst h6; rfl
            · exact isWrite_no_transform (writeChunksStep_isWrite env cfg _ e h4)
          · exact writeAssetsStep_no_transform env _ _ _ e h2
        · split at he
          · rcases List.mem_append.mp he with h1 | h2
            · rcases List.mem_append.mp h1 with h3 | h4
              · rcases List.mem_append.mp h3 with h5 | h6
                · exact ensureDirEvents_no_transform env cfg e h5
                · simp at h6; subst h6; rfl
              · exact isWrite_no_transform (writeChunksStep_isWrite env cfg _ e h4)
            · exact writeAssetsStep_no_transform env _ _ _ e h2
          · rcases List.mem_append.mp he with h1 | h2
            · rcases List.mem_append.mp h1 with h3 | h4
              · rcases List.mem_append.mp h3 with h5 | h6
                · rcases List.mem_append.mp h5 with h7 | h8
                  · exact ensureDirEvents_no_transform env cfg e h7
                  · simp at h8; subst h8; rfl
                · exact isWrite_no_transform (writeChunksStep_isWrite env cfg _ e h6)
              · exact writeAssetsStep_no_transform env _ _ _ e h4
            · simp at h2; subst h2; rfl

theorem writePatches_events (env : Env) (cfg : Config) (s : CState) (ids : List String)
    (ch lh : Nat) :
    ∀ ns : List String, ∀ e ∈ (writePatches env cfg s ids ch lh ns).1,
      (∃ n, n ∈ ns ∧ e = Event.renderHmrChunk n)
      ∨ ∃ n code, n ∈ ns
          ∧ e = Event.write (pathJoin cfg.output.path (to_hot_update_chunk_name n lh)) code := by
  intro ns
  induction ns with
  | nil => intro e he; simp [writePatches] at he
  | cons n rest ih =>
    intro e he
    simp only [writePatches] at he
    split at he
    · rcases ih e he with ⟨n2, hn2, rfl⟩ | ⟨n2, code, hn2, rfl⟩
      · exact Or.inl ⟨n2, List.mem_cons_of_mem n hn2, rfl⟩
      · exact Or.inr ⟨n2, code, List.mem_cons_of_mem n hn2, rfl⟩
    · split at he
      · simp at he
        subst he
        exact Or.inl ⟨n, List.mem_cons_self n rest, rfl⟩
      · rcases List.mem_cons.mp he with rfl | h2
        · exact Or.inl ⟨n, List.mem_cons_self n rest, rfl⟩
        · rcases List.mem_cons.mp h2 with rfl | h3
          · exact Or.inr ⟨n, _, List.mem_cons_self n rest, rfl⟩
          · rcases ih e h3 with ⟨n2, hn2, rfl⟩ | ⟨n2, code, hn2, rfl⟩
            · exact Or.inl ⟨n2, List.mem_cons_of_mem n hn2, rfl⟩
            · exact Or.inr ⟨n2, code, List.mem_cons_of_mem n hn2, rfl⟩

theorem writePatches_no_transform (env : Env) (cfg : Config) (s : CState) (ids : List String)
    (ch lh : Nat) (ns : List String) :
    ∀ e ∈ (writePatches env cfg s ids ch lh ns).1, e.isTransform = false := by
  intro e he
  rcases writePatches_events env cfg s ids ch lh ns e he with ⟨n, _, rfl⟩ | ⟨n, code, _, rfl⟩
  · rfl
  · rfl

theorem hotUpdateTail_no_transform (env : Env) (cfg : Config) (lastChunkNames : List String)
    (s2 : CState) (u : UpdateResult) (ch lh : Nat) :
    ∀ e ∈ (hotUpdateTail env cfg lastChunkNames s2 u ch lh).1, e.isTransform = false := by
  intro e he
  simp only [hotUpdateTail] at he
  split at he
  · rcases List.mem_append.mp he with h1 | h2
    · exact ensureDirEvents_no_transform env cfg e h1
    · exact writePatches_no_transform env cfg s2 u.modified ch lh _ e h2
  · rcases List.mem_append.mp he with h1 | h2
    · rcases List.mem_append.mp h1 with h3 | h4
      · exact ensureDirEvents_no_transform env cfg e h3
      · exact writePatches_no_transform env cfg s2 u.modified ch lh _ e h4
    · simp at h2
      subst h2
      rfl

theorem regroupState_moduleIds (env : Env) (s : CState) :
    (regroupState env s).moduleIds = s.moduleIds := rfl

theorem transform_injective : Function.Injective Event.transform := by
  intro a b hab
  cases hab
  rfl

theorem count_transform_map (ids : List String) (m : String) (h : ids.Nodup) (hm : m ∈ ids) :
    (ids.map Event.transform).count (Event.transform m) = 1 := by
  rw [List.count_map_of_injective ids Event.transform transform_injective m]
  exact List.count_eq_one_of_mem h hm

theorem count_transform_zero (t : List Event) (m : String)
    (h : ∀ e ∈ t, e.isTransform = false) : t.count (Event.transform m) = 0 := by
  refine List.count_eq_zero_of_not_mem ?_
  intro hmem
  have hfalse := h _ hmem
  simp [Event.isTransform] at hfalse

theorem gen_pre_count (cfg : Config) (ids : List String) (m : String)
    (h : ids.Nodup) (hm : m ∈ ids) :
    (treeShakeEvents cfg ++ [Event.groupChunk] ++ ids.map Event.transform).count
      (Event.transform m) = 1 := by
  rw [List.count_append, List.count_append]
  have h1 : (treeShakeEvents cfg).count (Event.transform m) = 0 := by
    unfold treeShakeEvents
    split <;> simp [List.count_cons]
  have h2 : ([Event.groupChunk] : List Event).count (Event.transform m) = 0 := by
    simp [List.count_cons]
  rw [h1, h2, count_transform_map ids m h hm]

theorem gen_pre_no_render (cfg : Config) (ids : List String) :
    ∀ e ∈ treeShakeEvents cfg ++ [Event.groupChunk] ++ ids.map Event.transform,
      e.isRenderOrWrite = false := by
  intro e he
  rcases List.mem_append.mp he with h1 | h2
  · rcases List.mem_append.mp h1 with h3 | h4
    · unfold treeShakeEvents at h3
      split at h3
      · simp at h3
        subst h3
        rfl
      · simp at h3
    · simp at h4
      subst h4
      rfl
  · simp only [List.mem_map] at h2
    obtain ⟨m, _, rfl⟩ := h2
    rfl

theorem hot_pre_count (ids : List String) (m : String) (h : ids.Nodup) (hm : m ∈ ids) :
    (Event.groupChunk :: ids.map Event.transform).count (Event.transform m) = 1 := by
  rw [List.count_cons]
  simp [count_transform_map ids m h hm]

theorem hot_pre_no_render (ids : List String) :
    ∀ e ∈ Event.groupChunk :: ids.map Event.transform, e.isRenderOrWrite = false := by
  intro e he
  rcases List.mem_cons.mp he with rfl | h2
  · rfl
  · simp only [List.mem_map] at h2
    obtain ⟨m, _, rfl⟩ := h2
    rfl

theorem generate_trace_split (env : Env) (cfg : Config) (s0 : CState) :
    ∃ tl, (generate env cfg s0).1
        = (treeShakeEvents cfg ++ [Event.groupChunk]
            ++ (treeShakeState env cfg s0).moduleIds.map Event.transform) ++ tl
      ∧ ∀ e ∈ tl, e.isTransform = false := by
  simp only [generate]
  cases h : env.transformResult (regroupState env (treeShakeState env cfg s0)) with
  | error e => exact ⟨[], by simp [regroupState_moduleIds], by simp⟩
  | ok c =>
    exact ⟨(generateTail env cfg { regroupState env (treeShakeState env cfg s0) with content := c }).1,
      by simp [regroupState_moduleIds], generateTail_no_transform env cfg _⟩

theorem hot_trace_split (env : Env) (cfg : Config) (s0 : CState) (u : UpdateResult)
    (lastFullHash : Nat) :
    ∃ tl, (generate_hot_update_chunks env cfg s0 u lastFullHash).1
        = (Event.groupChunk :: s0.moduleIds.map Event.transform) ++ tl
      ∧ ∀ e ∈ tl, e.isTransform = false := by
  simp only [generate_hot_update_chunks]
  cases h : env.transformResult (regroupState env s0) with
  | error e => exact ⟨[], by simp [regroupState_moduleIds], by simp⟩
  | ok c =>
    dsimp only
    split
    · exact ⟨[], by simp [regroupState_moduleIds], by simp⟩
    · exact ⟨(hotUpdateTail env cfg s0.chunkGraph.chunk_names
          { regroupState env s0 with content := c } u
          (env.fullHash { regroupState env s0 with content := c }) lastFullHash).1,
        by simp [regroupState_moduleIds], hotUpdateTail_no_transform env cfg _ _ u _ _⟩

theorem transformOnceSpec_of_split (ids : List String) (t pre tl : List Event)
    (ht : t = pre ++ tl)
    (hpre1 : ∀ e ∈ pre, e.isRenderOrWrite = false)
    (hpre2 : ∀ m ∈ ids, pre.count (Event.transform m) = 1)
    (htl : ∀ e ∈ tl, e.isTransform = false) :
    transformOnceSpec ids t := by
  refine ⟨?_, pre, tl, ht, hpre1, hpre2, htl⟩
  intro m hm
  rw [ht, List.count_append, hpre2 m hm, count_transform_zero tl m htl]

/-- C1: in every full build and every hot-update rebuild, each module
of the graph is transformed exactly once, and all transforms appear in
the trace before any per-chunk render or write event. -/
theorem transforms_once_and_hoisted (env : Env) (cfg : Config) (s0 : CState)
    (u : UpdateResult) (lastFullHash : Nat)
    (h1 : (treeShakeState env cfg s0).moduleIds.Nodup)
    (h2 : s0.moduleIds.Nodup) :
    transformOnceSpec (treeShakeState env cfg s0).moduleIds (generate env cfg s0).1
    ∧ transformOnceSpec s0.moduleIds
        (generate_hot_update_chunks env cfg s0 u lastFullHash).1 := by
  constructor
  · obtain ⟨tl, ht, htl⟩ := generate_trace_split env cfg s0
    exact transformOnceSpec_of_split _ _ _ tl ht
      (gen_pre_no_render cfg _)
      (fun m hm => gen_pre_count cfg _ m h1 hm) htl
  · obtain ⟨tl, ht, htl⟩ := hot_trace_split env cfg s0 u lastFullHash
    exact transformOnceSpec_of_split _ _ _ tl ht
      (hot_pre_no_render _)
      (fun m hm => hot_pre_count _ m h2 hm) htl

/-- Witness for C1 at a concrete environment, config and state. -/
theorem transforms_once_and_hoisted_witness :
    ((treeShakeState env0 cfg0 state0).moduleIds.Nodup ∧ state0.moduleIds.Nodup)
    ∧ (transformOnceSpec (treeShakeState env0 cfg0 state0).moduleIds
          (generate env0 cfg0 state0).1
       ∧ transformOnceSpec state0.moduleIds
          (generate_hot_update_chunks env0 cfg0 state0 u0 99).1) :=
  ⟨⟨by decide, by decide⟩,
   transforms_once_and_hoisted env0 cfg0 state0 u0 99 (by decide) (by decide)⟩

/-! Shape lemmas for the emitting path of a hot-update rebuild. -/

theorem hotState_chunkGraph (env : Env) (s0 : CState) (c : Nat) :
    (hotState env s0 c).chunkGraph = env.groupChunk s0 := rfl

theorem hot_update_run_shape (env : Env) (cfg : Config) (s0 : CState) (u : UpdateResult)
    (lastFullHash c : Nat)
    (hT : env.transformResult (regroupState env s0) = Except.ok c)
    (hH : env.fullHash (hotState env s0 c) ≠ lastFullHash) :
    generate_hot_update_chunks env cfg s0 u lastFullHash
      = ((Event.groupChunk :: s0.moduleIds.map Event.transform)
          ++ (hotUpdateTail env cfg s0.chunkGraph.chunk_names (hotState env s0 c) u
                (env.fullHash (hotState env s0 c)) lastFullHash).1,
         match (hotUpdateTail env cfg s0.chunkGraph.chunk_names (hotState env s0 c) u
                (env.fullHash (hotState env s0 c)) lastFullHash).2 with
         | Except.error e => Except.error e
         | Except.ok _ => Except.ok (env.fullHash (hotState env s0 c))) := by
  simp only [generate_hot_update_chunks, hT]
  split
  next h => exact absurd h hH
  next => rfl

theorem hotUpdateTail_cases (env : Env) (cfg : Config) (names : List String) (s2 : CState)
    (u : UpdateResult) (ch lh : Nat) :
    (∃ e, (writePatches env cfg s2 u.modified ch lh
            (modifiedChunkNames s2.chunkGraph u.modified)).2 = Except.error e
       ∧ hotUpdateTail env cfg names s2 u ch lh
          = (ensureDirEvents env cfg
              ++ (writePatches env cfg s2 u.modified ch lh
                    (modifiedChunkNames s2.chunkGraph u.modified)).1,
             Except.error e))
    ∨ ((writePatches env cfg s2 u.modified ch lh
            (modifiedChunkNames s2.chunkGraph u.modified)).2 = Except.ok ()
       ∧ hotUpdateTail env cfg names s2 u ch lh
          = (ensureDirEvents env cfg
              ++ (writePatches env cfg s2 u.modified ch lh
                    (modifiedChunkNames s2.chunkGraph u.modified)).1
              ++ [Event.write (pathJoin cfg.output.path (manifestFileName lh))
                    (hotUpdateManifestJson
                      { modified_chunks := modifiedChunkNames s2.chunkGraph u.modified,
                        removed_chunks := removedChunkNames names s2.chunkGraph.chunk_names })],
             Except.ok ())) := by
  cases hp : (writePatches env cfg s2 u.modified ch lh
      (modifiedChunkNames s2.chunkGraph u.modified)).2 with
  | error e => exact Or.inl ⟨e, rfl, by simp [hotUpdateTail, hp]⟩
  | ok x => exact Or.inr ⟨rfl, by simp [hotUpdateTail, hp]⟩

/-- C4: every write of an emitting hot-update rebuild is either a patch
chunk under to_hot_update_chunk_name of a modified chunk name and the
previous hash, or the manifest under the previous hash with the
hot-update.json suffix; a successful run does write the manifest; and
the manifest serializes the modified list under the exact key c and the
removed list under the exact key r. -/
theorem hot_update_manifest_and_patch_naming (env : Env) (cfg : Config) (s0 : CState)
    (u : UpdateResult) (lastFullHash c : Nat)
    (hT : env.transformResult (regroupState env s0) = Except.ok c)
    (hH : env.fullHash (hotState env s0 c) ≠ lastFullHash) :
    (∀ e ∈ (generate_hot_update_chunks env cfg s0 u lastFullHash).1, e.isWrite = true →
        (∃ n code, n ∈ hotModified env s0 u
            ∧ e = Event.write
                (pathJoin cfg.output.path (to_hot_update_chunk_name n lastFullHash)) code)
        ∨ e = hotManifestEvent env cfg s0 u lastFullHash)
    ∧ (∀ h', (generate_hot_update_chunks env cfg s0 u lastFullHash).2 = Except.ok h' →
        hotManifestEvent env cfg s0 u lastFullHash
          ∈ (generate_hot_update_chunks env cfg s0 u lastFullHash).1)
    ∧ (∀ M R : List String,
        hotUpdateManifestJson { modified_chunks := M, removed_chunks := R }
          = "\x7b\"c\":" ++ jsonStringArray M ++ ",\"r\":" ++ jsonStringArray R ++ "\x7d") := by
  have hshape := hot_update_run_shape env cfg s0 u lastFullHash c hT hH
  have hcases := hotUpdateTail_cases env cfg s0.chunkGraph.chunk_names (hotState env s0 c) u
    (env.fullHash (hotState env s0 c)) lastFullHash
  refine ⟨?_, ?_, ?_⟩
  · intro e he hw
    rw [hshape] at he
    rcases List.mem_append.mp he with h1 | h2
    · exfalso
      rcases List.mem_cons.mp h1 with rfl | h3
      · simp [Event.isWrite] at hw
      · obtain ⟨m, _, rfl⟩ := List.mem_map.mp h3
        simp [Event.isWrite] at hw
    · rcases hcases with ⟨e2, _, htl⟩ | ⟨_, htl⟩
      · rw [htl] at h2
        rcases List.mem_append.mp h2 with h3 | h4
        · rw [ensureDirEvents_no_write env cfg e h3] at hw
          exact absurd hw (by decide)
        · rcases writePatches_events env cfg _ _ _ _ _ e h4 with ⟨n, _, rfl⟩ | ⟨n, code, hn, rfl⟩
          · simp [Event.isWrite] at hw
          · exact Or.inl ⟨n, code, hn, rfl⟩
      · rw [htl] at h2
        rcases List.mem_append.mp h2 with h3 | h4
        · rcases List.mem_append.mp h3 with h5 | h6
          · rw [ensureDirEvents_no_write env cfg e h5] at hw
            exact absurd hw (by decide)
          · rcases writePatches_events env cfg _ _ _ _ _ e h6 with ⟨n, _, rfl⟩ | ⟨n, code, hn, rfl⟩
            · simp [Event.isWrite] at hw
            · exact Or.inl ⟨n, code, hn, rfl⟩
        · simp only [List.mem_singleton] at h4
          subst h4
          exact Or.inr (by
            simp [hotManifestEvent, hotModified, hotRemoved, hotState_chunkGraph])
  · intro h' hok
    rcases hcases with ⟨e2, _, htl⟩ | ⟨_, htl⟩
    · exfalso
      rw [hshape] at hok
      rw [htl] at hok
      simp at hok
    · rw [hshape, htl]
      refine List.mem_append.mpr (Or.inr ?_)
      refine List.mem_append.mpr (Or.inr ?_)
      simp [hotManifestEvent, hotModified, hotRemoved, hotState_chunkGraph]
  · intro M R
    unfold hotUpdateManifestJson
    have h1 : jsonStringLit "c" = "\"c\"" := rfl
    have h2 : jsonStringLit "r" = "\"r\"" := rfl
    rw [h1, h2]
    apply String.ext
    simp [String.data_append]

/-- Witness for C4 at a concrete environment and state. -/
theorem hot_update_manifest_and_patch_naming_witness :
    (env0.transformResult (regroupState env0 state0) = Except.ok 5)
    ∧ (env0.fullHash (hotState env0 state0 5) ≠ 99)
    ∧ ((∀ e ∈ (generate_hot_update_chunks env0 cfg0 state0 u0 99).1, e.isWrite = true →
          (∃ n code, n ∈ hotModified env0 state0 u0
              ∧ e = Event.write
                  (pathJoin cfg0.output.path (to_hot_update_chunk_name n 99)) code)
          ∨ e = hotManifestEvent env0 cfg0 state0 u0 99)
       ∧ (∀ h', (generate_hot_update_chunks env0 cfg0 state0 u0 99).2 = Except.ok h' →
          hotManifestEvent env0 cfg0 state0 u0 99
            ∈ (generate_hot_update_chunks env0 cfg0 state0 u0 99).1)
       ∧ (∀ M R : List String,
          hotUpdateManifestJson { modified_chunks := M, removed_chunks := R }
            = "\x7b\"c\":" ++ jsonStringArray M ++ ",\"r\":" ++ jsonStringArray R ++ "\x7d")) :=
  ⟨rfl, by decide,
   hot_update_manifest_and_patch_naming env0 cfg0 state0 u0 99 5 rfl (by decide)⟩

theorem hot_run_ok_cases (env : Env) (cfg : Config) (s0 : CState) (u : UpdateResult)
    (lastFullHash c : Nat)
    (hT : env.transformResult (regroupState env s0) = Except.ok c)
    (hH : env.fullHash (hotState env s0 c) ≠ lastFullHash) :
    ∀ h', (generate_hot_update_chunks env cfg s0 u lastFullHash).2 = Except.ok h' →
      h' = env.fullHash (hotState env s0 c)
      ∧ (hotPatches env cfg s0 u c lastFullHash).2 = Except.ok ()
      ∧ generate_hot_update_chunks env cfg s0 u lastFullHash
        = ((Event.groupChunk :: s0.moduleIds.map Event.transform)
            ++ (ensureDirEvents env cfg ++ (hotPatches env cfg s0 u c lastFullHash).1
                ++ [hotManifestEvent env cfg s0 u lastFullHash]),
           Except.ok (env.fullHash (hotState env s0 c))) := by
  intro h' hok
  have hshape := hot_update_run_shape env cfg s0 u lastFullHash c hT hH
  rcases hotUpdateTail_cases env cfg s0.chunkGraph.chunk_names (hotState env s0 c) u
      (env.fullHash (hotState env s0 c)) lastFullHash with ⟨e2, hpw, htl⟩ | ⟨hpw, htl⟩
  · exfalso
    rw [hshape, htl] at hok
    simp at hok
  · have hok2 := hok
    rw [hshape, htl] at hok2
    simp at hok2
    refine ⟨hok2.symm, hpw, ?_⟩
    rw [hshape, htl]
    rfl

/-- C5: the modified set of a hot-update rebuild is exactly the set of
chunks of the regrouped graph whose module set meets the modified
module ids, identified by chunk filename; and on success the manifest
written by the rebuild carries exactly that list as its modified
chunks. -/
theorem modified_chunks_spec (env : Env) (cfg : Config) (s0 : CState) (u : UpdateResult)
    (lastFullHash c : Nat)
    (hT : env.transformResult (regroupState env s0) = Except.ok c)
    (hH : env.fullHash (hotState env s0 c) ≠ lastFullHash) :
    (∀ (cg : ChunkGraph) (ids : List String) (f : String),
        f ∈ modifiedChunkNames cg ids
          ↔ ∃ ch, ch ∈ cg.get_chunks ∧ (∃ m ∈ ids, m ∈ ch.modules) ∧ ch.filename = f)
    ∧ (∀ h', (generate_hot_update_chunks env cfg s0 u lastFullHash).2 = Except.ok h' →
        Event.write (pathJoin cfg.output.path (manifestFileName lastFullHash))
          (hotUpdateManifestJson
            { modified_chunks := modifiedChunkNames (env.groupChunk s0) u.modified,
              removed_chunks := hotRemoved env s0 })
          ∈ (generate_hot_update_chunks env cfg s0 u lastFullHash).1) := by
  constructor
  · intro cg ids f
    unfold modifiedChunkNames ChunkGraph.get_chunks
    constructor
    · intro hf
      obtain ⟨ch, hch, hfe⟩ := List.mem_map.mp hf
      obtain ⟨hmem, hp⟩ := List.mem_filter.mp hch
      rw [List.any_eq_true] at hp
      obtain ⟨m, hm, hmod⟩ := hp
      refine ⟨ch, hmem, ⟨m, hm, ?_⟩, hfe⟩
      simpa [Chunk.has_module, List.contains] using hmod
    · rintro ⟨ch, hch, ⟨m, hm, hmod⟩, hfe⟩
      refine List.mem_map.mpr ⟨ch, List.mem_filter.mpr ⟨hch, ?_⟩, hfe⟩
      rw [List.any_eq_true]
      exact ⟨m, hm, by simp [Chunk.has_module, List.contains, hmod]⟩
  · intro h' hok
    have h3 := (hot_run_ok_cases env cfg s0 u lastFullHash c hT hH h' hok).2.2
    rw [h3]
    refine List.mem_append.mpr (Or.inr (List.mem_append.mpr (Or.inr ?_)))
    simp [hotManifestEvent, hotModified]

/-- Witness for C5 at a concrete environment and state. -/
theorem modified_chunks_spec_witness :
    (env0.transformResult (regroupState env0 state0) = Except.ok 5)
    ∧ (env0.fullHash (hotState env0 state0 5) ≠ 99)
    ∧ ((∀ (cg : ChunkGraph) (ids : List String) (f : String),
          f ∈ modifiedChunkNames cg ids
            ↔ ∃ ch, ch ∈ cg.get_chunks ∧ (∃ m ∈ ids, m ∈ ch.modules) ∧ ch.filename = f)
       ∧ (∀ h', (generate_hot_update_chunks env0 cfg0 state0 u0 99).2 = Except.ok h' →
          Event.write (pathJoin cfg0.output.path (manifestFileName 99))
            (hotUpdateManifestJson
              { modified_chunks := modifiedChunkNames (env0.groupChunk state0) u0.modified,
                removed_chunks := hotRemoved env0 state0 })
            ∈ (generate_hot_update_chunks env0 cfg0 state0 u0 99).1)) :=
  ⟨rfl, by decide, modified_chunks_spec env0 cfg0 state0 u0 99 5 rfl (by decide)⟩

/-- C6: the removed set of a hot-update rebuild is the set difference
of the pre-rebuild chunk-name snapshot minus the post-regrouping chunk
names; a chunk named foo present before and absent after the regroup
lands in removed and not in modified, and on success the manifest
carries exactly that removed list. -/
theorem removed_chunks_spec (env : Env) (cfg : Config) (s0 : CState) (u : UpdateResult)
    (lastFullHash c : Nat) (f : String)
    (hT : env.transformResult (regroupState env s0) = Except.ok c)
    (hH : env.fullHash (hotState env s0 c) ≠ lastFullHash) :
    (∀ (prev cur : List String) (n : String),
        n ∈ removedChunkNames prev cur ↔ (n ∈ prev ∧ n ∉ cur))
    ∧ (f ∈ s0.chunkGraph.chunk_names →
        (∀ ch ∈ (env.groupChunk s0).chunks, ch.name ≠ f ∧ ch.filename ≠ f) →
        f ∈ hotRemoved env s0 ∧ f ∉ hotModified env s0 u)
    ∧ (∀ h', (generate_hot_update_chunks env cfg s0 u lastFullHash).2 = Except.ok h' →
        Event.write (pathJoin cfg.output.path (manifestFileName lastFullHash))
          (hotUpdateManifestJson
            { modified_chunks := hotModified env s0 u,
              removed_chunks := removedChunkNames s0.chunkGraph.chunk_names
                (env.groupChunk s0).chunk_names })
          ∈ (generate_hot_update_chunks env cfg s0 u lastFullHash).1) := by
  have hmemchar : ∀ (prev cur : List String) (n : String),
      n ∈ removedChunkNames prev cur ↔ (n ∈ prev ∧ n ∉ cur) := by
    intro prev cur n
    unfold removedChunkNames
    rw [List.mem_filter]
    simp [List.contains]
  refine ⟨hmemchar, ?_, ?_⟩
  · intro hfa hfb
    constructor
    · refine (hmemchar _ _ f).mpr ⟨hfa, ?_⟩
      intro hcur
      unfold ChunkGraph.chunk_names at hcur
      obtain ⟨ch, hch, hname⟩ := List.mem_map.mp hcur
      exact (hfb ch hch).1 hname
    · intro hmod
      unfold hotModified modifiedChunkNames at hmod
      obtain ⟨ch, hch, hfe⟩ := List.mem_map.mp hmod
      obtain ⟨hmem, _⟩ := List.mem_filter.mp hch
      exact (hfb ch hmem).2 hfe
  · intro h' hok
    have h3 := (hot_run_ok_cases env cfg s0 u lastFullHash c hT hH h' hok).2.2
    rw [h3]
    refine List.mem_append.mpr (Or.inr (List.mem_append.mpr (Or.inr ?_)))
    simp [hotManifestEvent, hotRemoved]

/-- Witness for C6 at a concrete environment and state: the chunk named
main.js exists before the rebuild and vanishes from the regrouped
graph. -/
theorem removed_chunks_spec_witness :
    (env6.transformResult (regroupState env6 state0) = Except.ok 5)
    ∧ (env6.fullHash (hotState env6 state0 5) ≠ 99)
    ∧ ("main.js" ∈ state0.chunkGraph.chunk_names)
    ∧ (∀ ch ∈ (env6.groupChunk state0).chunks, ch.name ≠ "main.js" ∧ ch.filename ≠ "main.js")
    ∧ ("main.js" ∈ hotRemoved env6 state0 ∧ "main.js" ∉ hotModified env6 state0 u0) :=
  ⟨rfl, by decide, by decide, by decide,
   ((removed_chunks_spec env6 cfg0 state0 u0 99 5 "main.js" rfl (by decide)).2.1
     (by decide) (by decide))⟩

theorem writePatches_skip_unresolved (env : Env) (cfg : Config) (s : CState) (f : String)
    (hnone : s.chunkGraph.get_chunk_by_name f = Option.none)
    (ids : List String) (ch lh : Nat) :
    ∀ ns, writePatches env cfg s ids ch lh ns
        = writePatches env cfg s ids ch lh (ns.filter (fun n => !(n == f))) := by
  intro ns
  induction ns with
  | nil => rfl
  | cons n rest ih =>
    by_cases hn : n = f
    · subst hn
      rw [List.filter_cons]
      rw [if_neg (by simp)]
      rw [← ih]
      simp only [writePatches, hnone]
    · rw [List.filter_cons]
      rw [if_pos (by simp [hn])]
      simp only [writePatches]
      cases hg : s.chunkGraph.get_chunk_by_name n with
      | none => exact ih
      | some cc =>
        dsimp only
        cases hmr : env.generateHmrChunk cc ids ch with
        | error e => rfl
        | ok code => simp [ih]

/-- C10: whenever the fresh full hash differs from the previous one, a
hot-update rebuild that completes writes the manifest keyed by the
previous hash; in particular when both the modified and removed chunk
lists are empty the rebuild succeeds and still writes the manifest,
whose payload then serializes two empty lists. -/
theorem hot_update_manifest_even_when_empty (env : Env) (cfg : Config) (s0 : CState)
    (u : UpdateResult) (lastFullHash c : Nat)
    (hT : env.transformResult (regroupState env s0) = Except.ok c)
    (hH : env.fullHash (hotState env s0 c) ≠ lastFullHash) :
    (∀ h', (generate_hot_update_chunks env cfg s0 u lastFullHash).2 = Except.ok h' →
        hotManifestEvent env cfg s0 u lastFullHash
          ∈ (generate_hot_update_chunks env cfg s0 u lastFullHash).1)
    ∧ (hotModified env s0 u = [] → hotRemoved env s0 = [] →
        (generate_hot_update_chunks env cfg s0 u lastFullHash).2
          = Except.ok (env.fullHash (hotState env s0 c))
        ∧ Event.write (pathJoin cfg.output.path (manifestFileName lastFullHash))
            (hotUpdateManifestJson { modified_chunks := [], removed_chunks := [] })
          ∈ (generate_hot_update_chunks env cfg s0 u lastFullHash).1) := by
  have hshape := hot_update_run_shape env cfg s0 u lastFullHash c hT hH
  constructor
  · intro h' hok
    have h3 := (hot_run_ok_cases env cfg s0 u lastFullHash c hT hH h' hok).2.2
    rw [h3]
    refine List.mem_append.mpr (Or.inr (List.mem_append.mpr (Or.inr ?_)))
    simp
  · intro hm hr
    have heq : modifiedChunkNames (hotState env s0 c).chunkGraph u.modified
        = hotModified env s0 u := rfl
    have heq2 : removedChunkNames s0.chunkGraph.chunk_names
        (hotState env s0 c).chunkGraph.chunk_names = hotRemoved env s0 := rfl
    rcases hotUpdateTail_cases env cfg s0.chunkGraph.chunk_names (hotState env s0 c) u
        (env.fullHash (hotState env s0 c)) lastFullHash with ⟨e2, hpw, htl⟩ | ⟨hpw, htl⟩
    · exfalso
      rw [heq, hm] at hpw
      simp [writePatches] at hpw
    · rw [heq, heq2, hm, hr] at htl
      constructor
      · rw [hshape, htl]
      · rw [hshape, htl]
        refine List.mem_append.mpr (Or.inr (List.mem_append.mpr (Or.inr ?_)))
        simp

/-- Witness for C10 at a concrete environment with an empty diff but a
changed full hash. -/
theorem hot_update_manifest_even_when_empty_witness :
    (env0.transformResult (regroupState env0 state0) = Except.ok 5)
    ∧ (env0.fullHash (hotState env0 state0 5) ≠ 99)
    ∧ (hotModified env0 state0 u1 = [])
    ∧ (hotRemoved env0 state0 = [])
    ∧ ((generate_hot_update_chunks env0 cfg0 state0 u1 99).2
          = Except.ok (env0.fullHash (hotState env0 state0 5))
       ∧ Event.write (pathJoin cfg0.output.path (manifestFileName 99))
           (hotUpdateManifestJson { modified_chunks := [], removed_chunks := [] })
         ∈ (generate_hot_update_chunks env0 cfg0 state0 u1 99).1) :=
  ⟨rfl, by decide, by decide, by decide,
   (hot_update_manifest_even_when_empty env0 cfg0 state0 u1 99 5 rfl (by decide)).2
     (by decide) (by decide)⟩

/-- C9: a filename in the modified set that does not resolve through
get_chunk_by_name contributes no patch write and no error to the patch
phase, which behaves as if the name were absent, while a successful
rebuild still lists that filename in the manifest under the modified
key. -/
theorem unresolved_modified_chunk_in_manifest (env : Env) (cfg : Config) (s0 : CState)
    (u : UpdateResult) (lastFullHash c : Nat) (f : String)
    (hT : env.transformResult (regroupState env s0) = Except.ok c)
    (hH : env.fullHash (hotState env s0 c) ≠ lastFullHash)
    (hf : f ∈ hotModified env s0 u)
    (hnone : (env.groupChunk s0).get_chunk_by_name f = Option.none) :
    (hotPatches env cfg s0 u c lastFullHash
      = writePatches env cfg (hotState env s0 c) u.modified
          (env.fullHash (hotState env s0 c)) lastFullHash
          ((hotModified env s0 u).filter (fun n => !(n == f))))
    ∧ (∀ h', (generate_hot_update_chunks env cfg s0 u lastFullHash).2 = Except.ok h' →
        hotManifestEvent env cfg s0 u lastFullHash
          ∈ (generate_hot_update_chunks env cfg s0 u lastFullHash).1
        ∧ f ∈ hotModified env s0 u) := by
  constructor
  · have hnone2 : (hotState env s0 c).chunkGraph.get_chunk_by_name f = Option.none := hnone
    exact writePatches_skip_unresolved env cfg (hotState env s0 c) f hnone2 u.modified
      (env.fullHash (hotState env s0 c)) lastFullHash (hotModified env s0 u)
  · intro h' hok
    have h3 := (hot_run_ok_cases env cfg s0 u lastFullHash c hT hH h' hok).2.2
    refine ⟨?_, hf⟩
    rw [h3]
    refine List.mem_append.mpr (Or.inr (List.mem_append.mpr (Or.inr ?_)))
    simp

/-- Witness for C9: a graph whose chunk is named main but has filename
main.js, so the modified filename does not resolve by name. -/
theorem unresolved_modified_chunk_in_manifest_witness :
    (env0.transformResult (regroupState env0 state9) = Except.ok 5)
    ∧ (env0.fullHash (hotState env0 state9 5) ≠ 99)
    ∧ ("main.js" ∈ hotModified env0 state9 u0)
    ∧ ((env0.groupChunk state9).get_chunk_by_name "main.js" = Option.none)
    ∧ ((hotPatches env0 cfg0 state9 u0 5 99
          = writePatches env0 cfg0 (hotState env0 state9 5) u0.modified
              (env0.fullHash (hotState env0 state9 5)) 99
              ((hotModified env0 state9 u0).filter (fun n => !(n == "main.js"))))
       ∧ (∀ h', (generate_hot_update_chunks env0 cfg0 state9 u0 99).2 = Except.ok h' →
          hotManifestEvent env0 cfg0 state9 u0 99
            ∈ (generate_hot_update_chunks env0 cfg0 state9 u0 99).1
          ∧ "main.js" ∈ hotModified env0 state9 u0)) :=
  ⟨rfl, by decide, by decide, by decide,
   unresolved_modified_chunk_in_manifest env0 cfg0 state9 u0 99 5 "main.js" rfl
     (by decide) (by decide) (by decide)⟩

/-! Minify gating lemmas. -/

theorem minifyFile_not_prod (env : Env) (cfg : Config) (f : OutputAst)
    (h : cfg.mode ≠ Mode.production) : minifyFile env cfg f = Except.ok f := by
  unfold minifyFile
  rw [if_neg h]

theorem minifyFiles_not_prod (env : Env) (cfg : Config) (h : cfg.mode ≠ Mode.production) :
    ∀ fs, minifyFiles env cfg fs = Except.ok fs := by
  intro fs
  induction fs with
  | nil => rfl
  | cons f rest ih => simp [minifyFiles, minifyFile_not_prod env cfg f h, ih]

theorem minifyStep_skip (env : Env) (cfg : Config) (files : List OutputAst)
    (h : ¬(cfg.minify = true ∧ cfg.mode = Mode.production)) :
    minifyStep env cfg files = Except.ok files := by
  unfold minifyStep
  by_cases hm : cfg.minify = true
  · rw [if_pos hm]
    exact minifyFiles_not_prod env cfg (fun hc => h ⟨hm, hc⟩) files
  · rw [if_neg hm]

theorem writeChunksStep_config_indep (env : Env) (c1 c2 : Config)
    (h1 : c1.devtool = c2.devtool) (h2 : c1.output = c2.output) :
    ∀ fs, writeChunksStep env c1 fs = writeChunksStep env c2 fs := by
  intro fs
  induction fs with
  | nil => rfl
  | cons f rest ih =>
    cases hast : f.ast with
    | script a =>
      simp only [writeChunksStep, hast]
      cases env.jsAstToCode a f.path with
      | error e => rfl
      | ok cm => rw [h1, h2, ih]
    | css a =>
      simp only [writeChunksStep, hast]
      rw [h2, ih]
    | other =>
      simp only [writeChunksStep, hast]
      exact ih

theorem generateTail_minify_indep (env : Env) (cfg : Config) (s : CState)
    (hnp : cfg.mode ≠ Mode.production) :
    generateTail env { cfg with minify := true } s
      = generateTail env { cfg with minify := false } s := by
  unfold generateTail
  cases env.generateChunksAst s with
  | error e => rfl
  | ok asts =>
    dsimp only
    rw [minifyStep_skip env { cfg with minify := true } asts (fun hc => hnp hc.2),
      minifyStep_skip env { cfg with minify := false } asts (fun hc => Bool.noConfusion hc.1)]
    dsimp only
    rw [writeChunksStep_config_indep env { cfg with minify := true }
      { cfg with minify := false } rfl rfl asts]
    have e3 : ensureDirEvents env { cfg with minify := true }
        = ensureDirEvents env { cfg with minify := false } := rfl
    rw [e3]

/-- C7: minification happens only when the minify flag is set and the
mode is production: otherwise the minify step returns the chunk ASTs
unchanged; AST kinds other than script and stylesheet pass through
untouched even in production; in production the script and stylesheet
minifiers are applied; and in development mode the whole build output
is identical whether the minify flag is set or not. -/
theorem minify_gating (env : Env) (cfg : Config) :
    (∀ files : List OutputAst, ¬(cfg.minify = true ∧ cfg.mode = Mode.production) →
        minifyStep env cfg files = Except.ok files)
    ∧ (∀ p : String, minifyFile env cfg { path := p, ast := ModuleAst.other }
        = Except.ok { path := p, ast := ModuleAst.other })
    ∧ (cfg.mode = Mode.production →
        (∀ p a, minifyFile env cfg { path := p, ast := ModuleAst.script a }
          = match env.minifyJs a with
            | Except.error e => Except.error e
            | Except.ok b => Except.ok { path := p, ast := ModuleAst.script b })
        ∧ (∀ p a, minifyFile env cfg { path := p, ast := ModuleAst.css a }
          = Except.ok { path := p, ast := ModuleAst.css (env.minifyCss a) }))
    ∧ (∀ s0 : CState, cfg.mode = Mode.development →
        generate env { cfg with minify := true } s0
          = generate env { cfg with minify := false } s0) := by
  refine ⟨fun files h => minifyStep_skip env cfg files h, ?_, ?_, ?_⟩
  · intro p
    unfold minifyFile
    split <;> rfl
  · intro hprod
    constructor
    · intro p a
      unfold minifyFile
      rw [if_pos hprod]
    · intro p a
      unfold minifyFile
      rw [if_pos hprod]
  · intro s0 hmode
    have hnp : cfg.mode ≠ Mode.production := by
      rw [hmode]
      decide
    simp only [generate]
    have e1 : treeShakeState env { cfg with minify := true } s0
        = treeShakeState env { cfg with minify := false } s0 := rfl
    have e2 : treeShakeEvents { cfg with minify := true }
        = treeShakeEvents { cfg with minify := false } := rfl
    rw [e1, e2]
    cases env.transformResult
        (regroupState env (treeShakeState env { cfg with minify := false } s0)) with
    | error e => rfl
    | ok c =>
      dsimp only
      rw [generateTail_minify_indep env cfg _ hnp]

/-- Witness for C7: in development mode nothing is minified, while in
production both minifiers are applied. -/
theorem minify_gating_witness :
    (¬(cfg0.minify = true ∧ cfg0.mode = Mode.production)
      ∧ minifyStep env0 cfg0 [{ path := "main.js", ast := ModuleAst.script 1 }]
          = Except.ok [{ path := "main.js", ast := ModuleAst.script 1 }])
    ∧ (cfg0.mode = Mode.development
      ∧ generate env0 { cfg0 with minify := true } state0
          = generate env0 { cfg0 with minify := false } state0)
    ∧ (cfgP.mode = Mode.production
      ∧ minifyFile env0 cfgP { path := "a.js", ast := ModuleAst.script 1 }
          = match env0.minifyJs 1 with
            | Except.error e => Except.error e
            | Except.ok b => Except.ok { path := "a.js", ast := ModuleAst.script b }) :=
  ⟨⟨by decide, (minify_gating env0 cfg0).1 _ (by decide)⟩,
   ⟨rfl, (minify_gating env0 cfg0).2.2.2 state0 rfl⟩,
   ⟨rfl, ((minify_gating env0 cfgP).2.2.1 rfl).1 "a.js" 1⟩⟩

/-! Asset-copy abort lemmas. -/

theorem treeShakeState_root (env : Env) (cfg : Config) (s0 : CState) :
    (treeShakeState env cfg s0).root = s0.root := by
  unfold treeShakeState
  split <;> rfl

theorem treeShakeState_assetsInfo (env : Env) (cfg : Config) (s0 : CState) :
    (treeShakeState env cfg s0).assetsInfo = s0.assetsInfo := by
  unfold treeShakeState
  split <;> rfl

theorem writeAssetsStep_ok_all_exist (env : Env) (root out : String) :
    ∀ l : List (String × String), (writeAssetsStep env root out l).2 = Except.ok () →
      ∀ kv ∈ l, env.pathExists (pathJoin root kv.1) = true := by
  intro l
  induction l with
  | nil => intro _ kv hkv; simp at hkv
  | cons kv0 rest ih =>
    intro h kv hkv
    simp only [writeAssetsStep] at h
    split at h
    · rcases List.mem_cons.mp hkv with rfl | h2
      · assumption
      · split at h
        · simp at h
        · exact ih h kv h2
    · simp at h

theorem generateTail_ok_assets (env : Env) (cfg : Config) (s : CState)
    (h : (generateTail env cfg s).2 = Except.ok ()) :
    (writeAssetsStep env s.root cfg.output.path s.assetsInfo).2 = Except.ok () := by
  simp only [generateTail] at h
  cases hg : env.generateChunksAst s with
  | error e => simp only [hg] at h; exact Except.noConfusion h
  | ok asts =>
    simp only [hg] at h
    cases hm : minifyStep env cfg asts with
    | error e => simp only [hm] at h; exact Except.noConfusion h
    | ok minified =>
      simp only [hm] at h
      cases hw : (writeChunksStep env cfg minified).2 with
      | error e => simp only [hw] at h; exact Except.noConfusion h
      | ok w =>
        simp only [hw] at h
        cases ha : (writeAssetsStep env s.root cfg.output.path s.assetsInfo).2 with
        | error e => simp only [ha] at h; exact Except.noConfusion h
        | ok val =>
          cases val
          rfl

theorem emit_dev_chunks_ok_assets (env : Env) (cfg : Config) (s : CState)
    (chunkAsts : List OutputAst)
    (h : (emit_dev_chunks env cfg s chunkAsts).2 = Except.ok ()) :
    (writeAssetsStep env s.root cfg.output.path s.assetsInfo).2 = Except.ok () := by
  simp only [emit_dev_chunks] at h
  cases hw : (writeDevChunksStep env cfg chunkAsts).2 with
  | error e => simp only [hw] at h; exact Except.noConfusion h
  | ok w =>
    simp only [hw] at h
    cases ha : (writeAssetsStep env s.root cfg.output.path s.assetsInfo).2 with
    | error e => simp only [ha] at h; exact Except.noConfusion h
    | ok val =>
      cases val
      rfl

theorem generate_ok_assets (env : Env) (cfg : Config) (s0 : CState)
    (h : (generate env cfg s0).2 = Except.ok ()) :
    (writeAssetsStep env s0.root cfg.output.path s0.assetsInfo).2 = Except.ok () := by
  simp only [generate] at h
  split at h
  · simp at h
  · have h2 := generateTail_ok_assets env cfg _ h
    rw [show (regroupState env (treeShakeState env cfg s0)).root = s0.root
        from treeShakeState_root env cfg s0] at h2
    rw [show (regroupState env (treeShakeState env cfg s0)).assetsInfo = s0.assetsInfo
        from treeShakeState_assetsInfo env cfg s0] at h2
    exact h2

/-- C8: if any declared asset source path is missing on disk, neither a
full build nor a dev hot rebuild can return success. -/
theorem missing_asset_aborts (env : Env) (cfg : Config) (s0 : CState)
    (chunkAsts : List OutputAst)
    (h : ∃ kv ∈ s0.assetsInfo, env.pathExists (pathJoin s0.root kv.1) = false) :
    (generate env cfg s0).2 ≠ Except.ok ()
    ∧ (emit_dev_chunks env cfg s0 chunkAsts).2 ≠ Except.ok () := by
  obtain ⟨kv, hkv, hmiss⟩ := h
  constructor
  · intro hok
    have hall := writeAssetsStep_ok_all_exist env s0.root cfg.output.path s0.assetsInfo
      (generate_ok_assets env cfg s0 hok) kv hkv
    rw [hmiss] at hall
    exact absurd hall (by decide)
  · intro hok
    have hall := writeAssetsStep_ok_all_exist env s0.root cfg.output.path s0.assetsInfo
      (emit_dev_chunks_ok_assets env cfg s0 chunkAsts hok) kv hkv
    rw [hmiss] at hall
    exact absurd hall (by decide)

/-- Witness for C8: an environment in which the single declared asset
source file does not exist. -/
theorem missing_asset_aborts_witness :
    (∃ kv ∈ state8.assetsInfo, env8.pathExists (pathJoin state8.root kv.1) = false)
    ∧ ((generate env8 cfg0 state8).2 ≠ Except.ok ()
       ∧ (emit_dev_chunks env8 cfg0 state8 []).2 ≠ Except.ok ()) :=
  ⟨⟨("logo.png", "logo.png"), by decide, by decide⟩,
   missing_asset_aborts env8 cfg0 state8 []
     ⟨("logo.png", "logo.png"), by decide, by decide⟩⟩

end Mako
